import Mathlib

-- Verification of the synapticxengine backend: the in-memory todo store
-- (src/backend/api/routes.py) and the SCORM manifest extractor and upload
-- pipeline (src/backend/app.py), shallowly embedded in Lean.

set_option maxHeartbeats 1000000

namespace SynapticX

----------------------------------------------------------------------
-- Part 1: the todo store (src/backend/api/routes.py)
----------------------------------------------------------------------

/-- A todo record: Python dict with keys id, title, completed. -/
structure Todo where
  id : Nat
  title : String
  completed : Bool
deriving DecidableEq

/-- A JSON request body as the todo handlers read it: the optional
title and completed keys, plus a flag recording whether any other key is
present (which affects Python truthiness of the dict but nothing else). -/
structure Payload where
  title : Option String
  completed : Option Bool
  extra : Bool
deriving DecidableEq

/-- Python falsiness of a dict: an empty dict is falsy. -/
def Payload.falsy (p : Payload) : Bool :=
  p.title.isNone && p.completed.isNone && !p.extra

/-- Python falsiness of request.json: None, or an empty dict. -/
def jsonFalsy : Option Payload → Bool
  | none => true
  | some p => p.falsy

/-- The module-level seed: todos = 3 fixed records at process start. -/
def initial_todos : List Todo :=
  [⟨1, "Learn Flask", false⟩, ⟨2, "Learn React", false⟩,
   ⟨3, "Build Full-Stack App", false⟩]

/-- The linear scan: first record whose id matches, None otherwise. -/
def findTodo (todos : List Todo) (tid : Nat) : Option Todo :=
  todos.find? (fun t => t.id == tid)

/-- The jsonify outcomes of the five todo handlers. -/
inductive TodoResponse where
  | listing : List Todo → TodoResponse
  | ok : Todo → TodoResponse
  | created : Todo → TodoResponse
  | notFound : TodoResponse
  | badRequest : String → TodoResponse
  | resultTrue : TodoResponse
deriving DecidableEq

/-- GET /todos. -/
def get_todos (todos : List Todo) : TodoResponse :=
  TodoResponse.listing todos

/-- GET /todos/<id>. -/
def get_todo (todos : List Todo) (tid : Nat) : TodoResponse :=
  match findTodo todos tid with
  | some t => TodoResponse.ok t
  | none => TodoResponse.notFound

/-- The maximum of the ids, as a fold; only used on nonempty
collections, matching the guarded Python expression. -/
def maxId (todos : List Todo) : Nat :=
  (todos.map Todo.id).foldl Nat.max 0

/-- POST /todos.  The Python guard (not request.json, or no title key in
request.json) collapses to the title check: a None body has no title, and
an empty dict (the only falsy non-None body) also lacks the title key. -/
def create_todo (todos : List Todo) (body : Option Payload) :
    List Todo × TodoResponse :=
  match body with
  | none => (todos, TodoResponse.badRequest "Title is required")
  | some p =>
    match p.title with
    | none => (todos, TodoResponse.badRequest "Title is required")
    | some ttl =>
      let new_id := if todos.isEmpty then 1 else maxId todos + 1
      let new_todo : Todo := ⟨new_id, ttl, p.completed.getD false⟩
      (todos ++ [new_todo], TodoResponse.created new_todo)

/-- In-place mutation of the matched dict:
the title key gets the payload title when supplied and keeps its prior
value otherwise, same for completed; the id key is never written. -/
def applyUpdate (p : Payload) (t : Todo) : Todo :=
  Todo.mk t.id (p.title.getD t.title) (p.completed.getD t.completed)

/-- The Python `next(...)` returns the first dict with matching id and the
handler mutates that object in place, so exactly the first match changes. -/
def updateFirst (todos : List Todo) (tid : Nat) (p : Payload) : List Todo :=
  match todos with
  | [] => []
  | t :: ts =>
    if t.id == tid then applyUpdate p t :: ts
    else t :: updateFirst ts tid p

/-- PUT /todos/<id>. -/
def update_todo (todos : List Todo) (tid : Nat) (body : Option Payload) :
    List Todo × TodoResponse :=
  match findTodo todos tid with
  | none => (todos, TodoResponse.notFound)
  | some t =>
    match body with
    | none => (todos, TodoResponse.badRequest "No data provided")
    | some p =>
      if p.falsy then (todos, TodoResponse.badRequest "No data provided")
      else (updateFirst todos tid p, TodoResponse.ok (applyUpdate p t))

/-- DELETE /todos/<id>: list-comprehension filter-out semantics. -/
def delete_todo (todos : List Todo) (tid : Nat) :
    List Todo × TodoResponse :=
  match findTodo todos tid with
  | none => (todos, TodoResponse.notFound)
  | some _ => (todos.filter (fun t => t.id != tid), TodoResponse.resultTrue)

/-- One API operation against the store. -/
inductive Op where
  | opList : Op
  | opGet : Nat → Op
  | opCreate : Option Payload → Op
  | opUpdate : Nat → Option Payload → Op
  | opDelete : Nat → Op

/-- The store state after one operation. -/
def applyOp (todos : List Todo) : Op → List Todo
  | Op.opList => todos
  | Op.opGet _ => todos
  | Op.opCreate b => (create_todo todos b).1
  | Op.opUpdate tid b => (update_todo todos tid b).1
  | Op.opDelete tid => (delete_todo todos tid).1

/-- The store state after a sequence of operations. -/
def runOps (todos : List Todo) : List Op → List Todo
  | [] => todos
  | op :: ops => runOps (applyOp todos op) ops

/-- The id-uniqueness invariant on the collection. -/
def UniqueIds (todos : List Todo) : Prop :=
  (todos.map Todo.id).Nodup

----------------------------------------------------------------------
-- Part 2: XML model for the manifest extractor (src/backend/app.py)
----------------------------------------------------------------------

/-- A namespace-expanded element name, as ElementTree resolves a
colon-separated tag against the ns mapping. -/
structure QName where
  ns : String
  loc : String
deriving DecidableEq

/-- An XML element: expanded tag, attributes, text, child elements. -/
inductive XTree where
  | elem : QName → List (String × String) → Option String → List XTree → XTree

def XTree.tag : XTree → QName
  | .elem t _ _ _ => t

def XTree.attrs : XTree → List (String × String)
  | .elem _ a _ _ => a

def XTree.text : XTree → Option String
  | .elem _ _ x _ => x

def XTree.children : XTree → List XTree
  | .elem _ _ _ cs => cs

/-- resource.get(name): attribute lookup, None when absent. -/
def XTree.getAttr (t : XTree) (name : String) : Option String :=
  t.attrs.lookup name

mutual

/-- Preorder search of a subtree for the first element with the tag. -/
def findDescTree (tag : QName) : XTree → Option XTree
  | XTree.elem t a x cs =>
    if t = tag then some (XTree.elem t a x cs) else findDescList tag cs

/-- Preorder search of a forest for the first element with the tag. -/
def findDescList (tag : QName) : List XTree → Option XTree
  | [] => none
  | c :: cs =>
    match findDescTree tag c with
    | some r => some r
    | none => findDescList tag cs

end

/-- root.find with a path of the form `.//tag`: first matching proper
descendant, in document order. -/
def XTree.findDesc (t : XTree) (tag : QName) : Option XTree :=
  findDescList tag t.children

/-- elem.find with a plain tag: first direct child with the tag. -/
def XTree.findChild (t : XTree) (tag : QName) : Option XTree :=
  t.children.find? (fun c => decide (c.tag = tag))

/-- elem.findall with a plain tag: all direct children with the tag, in
document order. -/
def XTree.childrenTagged (t : XTree) (tag : QName) : List XTree :=
  t.children.filter (fun c => decide (c.tag = tag))

/-- The ns dict defined in parse_scorm_manifest. -/
def scorm_ns : List (String × String) :=
  [("adlcp", "http://www.adlnet.org/xsd/adlcp_rootv1p2"),
   ("imscp", "http://www.imsproject.org/xsd/imscp_rootv1p1p2")]

/-- Split a character list at the colons. -/
def splitColonAux (acc : List Char) : List Char → List (List Char)
  | [] => [acc.reverse]
  | c :: rest =>
    if c = ':' then acc.reverse :: splitColonAux [] rest
    else splitColonAux (c :: acc) rest

/-- ElementTree resolution of a prefixed tag against an ns mapping. -/
def resolveQName (nsmap : List (String × String)) (s : String) : QName :=
  match (splitColonAux [] s.data).map List.asString with
  | [p, l] =>
    match nsmap.lookup p with
    | some uri => QName.mk uri l
    | none => QName.mk "" s
  | _ => QName.mk "" s

def qOrganizations : QName := resolveQName scorm_ns "imscp:organizations"

def qOrganization : QName := resolveQName scorm_ns "imscp:organization"

def qTitle : QName := resolveQName scorm_ns "imscp:title"

def qResources : QName := resolveQName scorm_ns "imscp:resources"

def qResource : QName := resolveQName scorm_ns "imscp:resource"

/-- One extracted SCO entry: identifier and href of a resource. -/
structure Sco where
  identifier : String
  href : String
deriving DecidableEq

/-- Python truthiness of an attribute value: present and non-empty. -/
def truthyStr : Option String → Bool
  | none => false
  | some s => decide (s ≠ "")

/-- The course-title block: start from the Untitled Course placeholder,
overwrite with title_elem.text only when the whole organizations chain is
present. -/
def extractCourseTitle (root : XTree) : Option String :=
  match root.findDesc qOrganizations with
  | none => some "Untitled Course"
  | some organizations =>
    match organizations.findChild qOrganization with
    | none => some "Untitled Course"
    | some organization =>
      match organization.findChild qTitle with
      | none => some "Untitled Course"
      | some title_elem => title_elem.text

/-- The SCO loop: iterate resource children of the first resources
element, keep those whose identifier and href are both truthy. -/
def extractScos (root : XTree) : List Sco :=
  match root.findDesc qResources with
  | none => []
  | some resources =>
    (resources.childrenTagged qResource).filterMap fun r =>
      if truthyStr (r.getAttr "identifier") && truthyStr (r.getAttr "href")
      then some (Sco.mk ((r.getAttr "identifier").getD "")
                        ((r.getAttr "href").getD ""))
      else none

/-- What parse_scorm_manifest finds at extract_dir: the manifest file is
missing, unparseable (ET.ParseError with a message), readable as a
well-formed tree, or some other exception is raised while processing. -/
inductive ManifestSource where
  | missing : ManifestSource
  | malformed : String → ManifestSource
  | parsed : XTree → ManifestSource
  | otherFailure : String → ManifestSource

/-- A JSON value in the dict parse_scorm_manifest returns. -/
inductive MVal where
  | vstr : String → MVal
  | vnull : MVal
  | vscos : List Sco → MVal
deriving DecidableEq

/-- course_title may be None when title_elem.text is None. -/
def optStrVal : Option String → MVal
  | none => MVal.vnull
  | some s => MVal.vstr s

/-- Whether a dict has a key, as the Python membership test on dicts. -/
def hasKey {α : Type} (d : List (String × α)) (k : String) : Bool :=
  (d.lookup k).isSome

/-- parse_scorm_manifest: returns a dict that is either an error report
or the course_title/scos descriptor. -/
def parse_scorm_manifest : ManifestSource → List (String × MVal)
  | ManifestSource.missing =>
    [("error",
      MVal.vstr "Manifest file (imsmanifest.xml) not found in the package")]
  | ManifestSource.malformed msg =>
    [("error", MVal.vstr ("Failed to parse manifest XML: " ++ msg))]
  | ManifestSource.otherFailure msg =>
    [("error", MVal.vstr ("Error processing manifest: " ++ msg))]
  | ManifestSource.parsed root =>
    [("course_title", optStrVal (extractCourseTitle root)),
     ("scos", MVal.vscos (extractScos root))]

----------------------------------------------------------------------
-- Part 3: the upload endpoint (src/backend/app.py, upload_scorm)
----------------------------------------------------------------------

/-- A JSON value in the upload response body. -/
inductive RVal where
  | rstr : String → RVal
  | rdict : List (String × MVal) → RVal
deriving DecidableEq

/-- The uploaded file as the handler sees it: its name, whether its bytes
form a valid zip, the generated extraction directory, and what the
manifest extractor will find there after extraction. -/
structure UploadedFile where
  filename : String
  zipValid : Bool
  extractDir : String
  manifest : ManifestSource

/-- str.lower(), character by character. -/
def strToLower (s : String) : String :=
  (s.data.map Char.toLower).asString

/-- str.endswith(suf). -/
def strEndsWith (s suf : String) : Bool :=
  List.isSuffixOf suf.data s.data

/-- The error entry of manifest_data, lifted into the response value type. -/
def errDetails (md : List (String × MVal)) : RVal :=
  match md.lookup "error" with
  | some (MVal.vstr s) => RVal.rstr s
  | _ => RVal.rstr ""

/-- POST /api/upload-scorm: status code and JSON body.  The input is
None when the file field is not in request.files. -/
def upload_scorm (file : Option UploadedFile) :
    Nat × List (String × RVal) :=
  match file with
  | none => (400, [("error", RVal.rstr "No file part in the request")])
  | some f =>
    if f.filename = "" then
      (400, [("error", RVal.rstr "No selected file")])
    else if !(strEndsWith (strToLower f.filename) ".zip") then
      (415, [("error", RVal.rstr "Invalid file type, please upload a .zip file")])
    else if !f.zipValid then
      (400, [("error", RVal.rstr "Invalid or corrupted zip file")])
    else
      let manifest_data := parse_scorm_manifest f.manifest
      let base :=
        [("message", RVal.rstr "File uploaded and extracted successfully"),
         ("extracted_content_path", RVal.rstr f.extractDir),
         ("manifest_parsing_status",
          RVal.rstr (if hasKey manifest_data "error" then "error" else "success"))]
      if hasKey manifest_data "error" then
        (200, base ++ [("manifest_error_details", errDetails manifest_data)])
      else
        (200, base ++ [("manifest_data", RVal.rdict manifest_data)])

/-- The title chain of step 4 of the extraction algorithm is incomplete:
no organizations element, or no organization child, or no title child. -/
def titleChainBroken (root : XTree) : Prop :=
  root.findDesc qOrganizations = none ∨
  (∃ organizations, root.findDesc qOrganizations = some organizations ∧
    organizations.findChild qOrganization = none) ∨
  (∃ organizations organization,
    root.findDesc qOrganizations = some organizations ∧
    organizations.findChild qOrganization = some organization ∧
    organization.findChild qTitle = none)

----------------------------------------------------------------------
-- Helper lemmas
----------------------------------------------------------------------

theorem foldl_max_le_init (l : List Nat) : ∀ a : Nat, a ≤ l.foldl Nat.max a := by
  induction l with
  | nil => intro a; exact Nat.le_refl a
  | cons x xs ih =>
    intro a
    exact Nat.le_trans (Nat.le_max_left a x) (ih (Nat.max a x))

theorem foldl_max_ge_mem (l : List Nat) :
    ∀ (a x : Nat), x ∈ l → x ≤ l.foldl Nat.max a := by
  induction l with
  | nil => intro a x hx; cases hx
  | cons y ys ih =>
    intro a x hx
    rcases List.mem_cons.1 hx with h | h
    · subst h
      exact Nat.le_trans (Nat.le_max_right a x) (foldl_max_le_init ys (Nat.max a x))
    · exact ih (Nat.max a y) x h

theorem foldl_max_mem_or (l : List Nat) :
    ∀ a : Nat, l.foldl Nat.max a = a ∨ l.foldl Nat.max a ∈ l := by
  induction l with
  | nil => intro a; exact Or.inl rfl
  | cons x xs ih =>
    intro a
    rcases ih (Nat.max a x) with h | h
    · by_cases hax : a ≤ x
      · refine Or.inr ?_
        have hmax : Nat.max a x = x := Nat.max_eq_right hax
        have hgoal : (x :: xs).foldl Nat.max a = x := by
          rw [List.foldl_cons, h, hmax]
        rw [hgoal]
        exact List.mem_cons_self x xs
      · refine Or.inl ?_
        have hmax : Nat.max a x = a := Nat.max_eq_left (Nat.le_of_not_le hax)
        rw [List.foldl_cons, h, hmax]
    · exact Or.inr (List.mem_cons_of_mem x h)

theorem maxId_ge (todos : List Todo) (t : Todo) (ht : t ∈ todos) :
    t.id ≤ maxId todos :=
  foldl_max_ge_mem _ 0 t.id (List.mem_map_of_mem Todo.id ht)

theorem maxId_mem (todos : List Todo) (h : todos ≠ []) :
    maxId todos ∈ todos.map Todo.id := by
  rcases foldl_max_mem_or (todos.map Todo.id) 0 with h0 | hm
  · rcases List.exists_mem_of_ne_nil todos h with ⟨t, ht⟩
    have h0m : maxId todos = 0 := h0
    have hle : t.id ≤ maxId todos := maxId_ge todos t ht
    have hid : t.id = maxId todos := by omega
    exact hid ▸ List.mem_map_of_mem Todo.id ht
  · exact hm

theorem findTodo_eq_none (todos : List Todo) (tid : Nat)
    (h : ∀ t ∈ todos, t.id ≠ tid) : findTodo todos tid = none :=
  List.find?_eq_none.mpr (fun t ht => by simpa using h t ht)

theorem findTodo_first (todos : List Todo) (tid : Nat) (p : Payload)
    (h : ∃ t ∈ todos, t.id = tid) :
    ∃ (i : Nat) (t : Todo),
      todos[i]? = some t ∧ t.id = tid ∧
      (∀ j u, j < i → todos[j]? = some u → u.id ≠ tid) ∧
      findTodo todos tid = some t ∧
      updateFirst todos tid p =
        todos.take i ++ applyUpdate p t :: todos.drop (i + 1) ∧
      todos = todos.take i ++ t :: todos.drop (i + 1) := by
  induction todos with
  | nil => rcases h with ⟨t, ht, _⟩; cases ht
  | cons t ts ih =>
    by_cases htid : t.id = tid
    · have hb : (t.id == tid) = true := beq_iff_eq.mpr htid
      refine ⟨0, t, by simp, htid, ?_, ?_, ?_, ?_⟩
      · intro j u hj; omega
      · simp [findTodo, List.find?, hb]
      · simp [updateFirst, hb]
      · simp
    · have hb : (t.id == tid) = false := by simp [htid]
      have h2 : ∃ u ∈ ts, u.id = tid := by
        rcases h with ⟨u, hu, hid⟩
        rcases List.mem_cons.1 hu with rfl | hmem
        · exact absurd hid htid
        · exact ⟨u, hmem, hid⟩
      rcases ih h2 with ⟨i, u, hget, hid, hmin, hfind, hupd, hdec⟩
      refine ⟨i + 1, u, by simpa using hget, hid, ?_, ?_, ?_, ?_⟩
      · intro j v hj hv
        cases j with
        | zero =>
          simp at hv
          subst hv
          exact htid
        | succ k =>
          exact hmin k v (by omega) (by simpa using hv)
      · have hfind2 : List.find? (fun x => x.id == tid) ts = some u := hfind
        simp [findTodo, List.find?, hb, hfind2]
      · simp only [updateFirst, List.take_succ_cons, List.drop_succ_cons,
          List.cons_append]
        rw [if_neg (by simp [hb])]
        exact congrArg (t :: ·) hupd
      · simpa [List.take_succ_cons, List.drop_succ_cons] using hdec

theorem updateFirst_map_id (todos : List Todo) (tid : Nat) (p : Payload) :
    (updateFirst todos tid p).map Todo.id = todos.map Todo.id := by
  induction todos with
  | nil => rfl
  | cons t ts ih =>
    by_cases h : t.id == tid
    · simp [updateFirst, h, applyUpdate]
    · simp [updateFirst, h, ih]

theorem applyUpdate_falsy (p : Payload) (t : Todo) (h : p.falsy = true) :
    applyUpdate p t = t := by
  have h' : (p.title.isNone && p.completed.isNone && !p.extra) = true := h
  simp only [Bool.and_eq_true, Option.isNone_iff_eq_none] at h'
  obtain ⟨⟨h1, h2⟩, _⟩ := h'
  simp [applyUpdate, h1, h2]

theorem filterMap_if_eq_map_filter {α β : Type} (f : α → β) (p : α → Bool)
    (l : List α) :
    l.filterMap (fun a => if p a then some (f a) else none) =
      (l.filter p).map f := by
  induction l with
  | nil => rfl
  | cons x xs ih =>
    by_cases h : p x
    · simp [List.filterMap_cons, List.filter_cons, h, ih]
    · simp [List.filterMap_cons, List.filter_cons, h, ih]

theorem mem_extractScos (root : XTree) (s : Sco) :
    s ∈ extractScos root ↔
    ∃ rs r, root.findDesc qResources = some rs ∧
      r ∈ rs.childrenTagged qResource ∧
      r.getAttr "identifier" = some s.identifier ∧ s.identifier ≠ "" ∧
      r.getAttr "href" = some s.href ∧ s.href ≠ "" := by
  unfold extractScos
  cases hfd : root.findDesc qResources with
  | none => simp
  | some rs =>
    simp only [List.mem_filterMap, Option.some.injEq]
    constructor
    · rintro ⟨r, hr, hf⟩
      cases hi : r.getAttr "identifier" with
      | none => rw [hi] at hf; simp [truthyStr] at hf
      | some iv =>
        cases hh : r.getAttr "href" with
        | none => rw [hh] at hf; simp [truthyStr] at hf
        | some hv =>
          rw [hi, hh] at hf
          by_cases hiv : iv = ""
          · subst hiv; simp [truthyStr] at hf
          · by_cases hhv : hv = ""
            · subst hhv; simp [truthyStr] at hf
            · have hc : (truthyStr (some iv) && truthyStr (some hv)) = true := by
                simp [truthyStr, hiv, hhv]
              rw [if_pos hc] at hf
              simp only [Option.getD_some, Option.some.injEq] at hf
              subst hf
              exact ⟨rs, r, rfl, hr, hi, hiv, hh, hhv⟩
    · rintro ⟨rs2, r, hrs2, hr, hi, hine, hh, hhne⟩
      subst hrs2
      refine ⟨r, hr, ?_⟩
      have hc : (truthyStr (r.getAttr "identifier") &&
          truthyStr (r.getAttr "href")) = true := by
        rw [hi, hh]
        simp [truthyStr, hine, hhne]
      rw [if_pos hc, hi, hh]
      rfl

----------------------------------------------------------------------
-- Claim theorems
----------------------------------------------------------------------

/-- Claim C4: Get, Update and Delete on an id absent from the collection
each return the not-found condition and leave the collection unchanged,
for every payload including an absent body. -/
theorem missing_id_not_found_no_mutation (todos : List Todo) (tid : Nat)
    (body : Option Payload) (h : ∀ t ∈ todos, t.id ≠ tid) :
    get_todo todos tid = TodoResponse.notFound ∧
    update_todo todos tid body = (todos, TodoResponse.notFound) ∧
    delete_todo todos tid = (todos, TodoResponse.notFound) := by
  have hf : findTodo todos tid = none := findTodo_eq_none todos tid h
  refine ⟨?_, ?_, ?_⟩
  · simp [get_todo, hf]
  · simp [update_todo, hf]
  · simp [delete_todo, hf]

/-- Witness for C4 at a concrete store and id. -/
theorem missing_id_not_found_no_mutation_witness :
    get_todo initial_todos 99 = TodoResponse.notFound ∧
    update_todo initial_todos 99 none = (initial_todos, TodoResponse.notFound) ∧
    delete_todo initial_todos 99 = (initial_todos, TodoResponse.notFound) :=
  missing_id_not_found_no_mutation initial_todos 99 none (by decide)

/-- Claim C1: Create fails with a validation error and leaves the
collection unchanged when the payload is absent or has no title key;
otherwise it appends at the end a record with the supplied title,
completed defaulted to false when omitted, and an id that is 1 on an
empty collection and the successor of the maximum existing id
otherwise. -/
theorem create_validates_and_appends (todos : List Todo)
    (body : Option Payload) :
    (body = none ∨ (∃ p, body = some p ∧ p.title = none) →
      create_todo todos body =
        (todos, TodoResponse.badRequest "Title is required")) ∧
    (∀ p ttl, body = some p → p.title = some ttl →
      ∃ n, create_todo todos body =
          (todos ++ [Todo.mk n ttl (p.completed.getD false)],
           TodoResponse.created (Todo.mk n ttl (p.completed.getD false))) ∧
        (todos = [] → n = 1) ∧
        (todos ≠ [] →
          (∀ t ∈ todos, t.id < n) ∧ ∃ t ∈ todos, t.id + 1 = n)) := by
  constructor
  · rintro (rfl | ⟨p, rfl, hp⟩)
    · rfl
    · simp [create_todo, hp]
  · rintro p ttl rfl httl
    refine ⟨if todos.isEmpty then 1 else maxId todos + 1, ?_, ?_, ?_⟩
    · simp [create_todo, httl]
    · intro hnil; subst hnil; rfl
    · intro hne
      have hemp : todos.isEmpty = false := by
        cases todos with
        | nil => exact absurd rfl hne
        | cons t ts => rfl
      rw [hemp]
      simp only [Bool.false_eq_true, if_false]
      constructor
      · intro t ht
        exact Nat.lt_succ_of_le (maxId_ge todos t ht)
      · rcases List.mem_map.1 (maxId_mem todos hne) with ⟨t, ht, hid⟩
        exact ⟨t, ht, by rw [hid]⟩

/-- Witness for C1: both the validation branch and the append branch at
concrete inputs. -/
theorem create_validates_and_appends_witness :
    create_todo initial_todos none =
      (initial_todos, TodoResponse.badRequest "Title is required") ∧
    ∃ n, create_todo initial_todos
            (some (Payload.mk (some "Test") none false)) =
          (initial_todos ++
             [Todo.mk n "Test" ((none : Option Bool).getD false)],
           TodoResponse.created
             (Todo.mk n "Test" ((none : Option Bool).getD false))) ∧
        (initial_todos = [] → n = 1) ∧
        (initial_todos ≠ [] →
          (∀ t ∈ initial_todos, t.id < n) ∧
          ∃ t ∈ initial_todos, t.id + 1 = n) :=
  ⟨(create_validates_and_appends initial_todos none).1 (Or.inl rfl),
   (create_validates_and_appends initial_todos
      (some (Payload.mk (some "Test") none false))).2
      (Payload.mk (some "Test") none false) "Test" rfl rfl⟩

/-- Claim C2: Update on an existing id with a non-absent payload changes
only the supplied fields of the first matched record, keeps its id and
its omitted fields, and leaves every other record and the order
untouched. -/
theorem update_supplied_fields_only (todos : List Todo) (tid : Nat) (p : Payload)
    (h : ∃ t ∈ todos, t.id = tid) :
    ∃ (i : Nat) (t : Todo),
      todos[i]? = some t ∧ t.id = tid ∧
      (∀ j u, j < i → todos[j]? = some u → u.id ≠ tid) ∧
      (update_todo todos tid (some p)).1 =
        todos.take i ++
          Todo.mk t.id (p.title.getD t.title) (p.completed.getD t.completed) ::
          todos.drop (i + 1) := by
  rcases findTodo_first todos tid p h with
    ⟨i, t, hget, hid, hmin, hfind, hupd, hdec⟩
  refine ⟨i, t, hget, hid, hmin, ?_⟩
  by_cases hfal : p.falsy = true
  · have hres : (update_todo todos tid (some p)).1 = todos := by
      simp [update_todo, hfind, hfal]
    rw [hres]
    have happ : Todo.mk t.id (p.title.getD t.title)
        (p.completed.getD t.completed) = t := applyUpdate_falsy p t hfal
    rw [happ]
    exact hdec
  · have hres : (update_todo todos tid (some p)).1 = updateFirst todos tid p := by
      simp [update_todo, hfind, hfal]
    rw [hres]
    exact hupd

/-- Witness for C2: a title-only update of record 2 in the seeded store. -/
theorem update_supplied_fields_only_witness :
    ∃ (i : Nat) (t : Todo),
      initial_todos[i]? = some t ∧ t.id = 2 ∧
      (∀ j u, j < i → initial_todos[j]? = some u → u.id ≠ 2) ∧
      (update_todo initial_todos 2
          (some (Payload.mk (some "X") none false))).1 =
        initial_todos.take i ++
          Todo.mk t.id ((Payload.mk (some "X") none false).title.getD t.title)
            ((Payload.mk (some "X") none false).completed.getD t.completed) ::
          initial_todos.drop (i + 1) :=
  update_supplied_fields_only initial_todos 2 (Payload.mk (some "X") none false)
    ⟨Todo.mk 2 "Learn React" false, by decide, rfl⟩

/-- Claim C3: Delete on a present id keeps exactly the records with a
different id, in their original relative order, and returns the
success indicator. -/
theorem delete_filters_exactly (todos : List Todo) (tid : Nat)
    (h : ∃ t ∈ todos, t.id = tid) :
    (delete_todo todos tid).2 = TodoResponse.resultTrue ∧
    (delete_todo todos tid).1.Sublist todos ∧
    (∀ u : Todo, u ∈ (delete_todo todos tid).1 ↔ u ∈ todos ∧ u.id ≠ tid) ∧
    (∀ u : Todo, u.id ≠ tid →
      (delete_todo todos tid).1.count u = todos.count u) ∧
    (∀ u : Todo, u.id = tid → (delete_todo todos tid).1.count u = 0) := by
  have hsome : ∃ t, findTodo todos tid = some t := by
    rcases h with ⟨t, ht, hid⟩
    exact Option.isSome_iff_exists.mp
      (List.find?_isSome.mpr ⟨t, ht, by simp [hid]⟩)
  rcases hsome with ⟨t, hfind⟩
  have hres : delete_todo todos tid =
      (todos.filter (fun u => u.id != tid), TodoResponse.resultTrue) := by
    simp [delete_todo, hfind]
  rw [hres]
  refine ⟨rfl, List.filter_sublist todos, ?_, ?_, ?_⟩
  · intro u
    rw [List.mem_filter]
    simp
  · intro u hu
    exact List.count_filter (by simpa using hu)
  · intro u hu
    refine List.count_eq_zero.mpr ?_
    intro hmem
    rcases List.mem_filter.1 hmem with ⟨_, hp⟩
    simp [hu] at hp

theorem create_preserves_unique (todos : List Todo) (body : Option Payload)
    (h : UniqueIds todos) : UniqueIds (create_todo todos body).1 := by
  cases body with
  | none => exact h
  | some p =>
    cases hp : p.title with
    | none => simpa [create_todo, hp] using h
    | some ttl =>
      have hres : (create_todo todos (some p)).1 =
          todos ++ [Todo.mk (if todos.isEmpty then 1 else maxId todos + 1)
            ttl (p.completed.getD false)] := by
        simp [create_todo, hp]
      rw [hres]
      by_cases hemp : todos.isEmpty = true
      · have hnil : todos = [] := List.isEmpty_iff.mp hemp
        subst hnil
        simp [UniqueIds]
      · have hne : todos ≠ [] := by
          intro hnil; exact hemp (by simp [hnil])
        have hemp' : todos.isEmpty = false := Bool.eq_false_iff.mpr hemp
        have hnotmem : (maxId todos + 1) ∉ todos.map Todo.id := by
          intro hmem
          rcases List.mem_map.1 hmem with ⟨t, ht, hid⟩
          have := maxId_ge todos t ht
          omega
        unfold UniqueIds at h ⊢
        rw [List.map_append]
        simp only [List.map_cons, List.map_nil, hemp', Bool.false_eq_true,
          if_false]
        simp [List.nodup_append, h, hnotmem]

theorem update_ids_unchanged (todos : List Todo) (tid : Nat)
    (body : Option Payload) :
    ((update_todo todos tid body).1).map Todo.id = todos.map Todo.id := by
  cases hfind : findTodo todos tid with
  | none => simp [update_todo, hfind]
  | some t =>
    cases body with
    | none => simp [update_todo, hfind]
    | some p =>
      by_cases hfal : p.falsy = true
      · simp [update_todo, hfind, hfal]
      · simp [update_todo, hfind, hfal, updateFirst_map_id]

theorem delete_preserves_unique (todos : List Todo) (tid : Nat)
    (h : UniqueIds todos) : UniqueIds (delete_todo todos tid).1 := by
  cases hfind : findTodo todos tid with
  | none => simpa [delete_todo, hfind] using h
  | some t =>
    have hres : (delete_todo todos tid).1 =
        todos.filter (fun u => u.id != tid) := by
      simp [delete_todo, hfind]
    rw [hres]
    exact List.Nodup.sublist
      (List.Sublist.map Todo.id (List.filter_sublist todos)) h

theorem applyOp_preserves_unique (todos : List Todo) (op : Op)
    (h : UniqueIds todos) : UniqueIds (applyOp todos op) := by
  cases op with
  | opList => exact h
  | opGet tid => exact h
  | opCreate b => exact create_preserves_unique todos b h
  | opUpdate tid b =>
    unfold UniqueIds
    rw [applyOp, update_ids_unchanged]
    exact h
  | opDelete tid => exact delete_preserves_unique todos tid h

theorem runOps_preserves_unique (ops : List Op) :
    ∀ todos : List Todo, UniqueIds todos → UniqueIds (runOps todos ops) := by
  induction ops with
  | nil => intro todos h; exact h
  | cons op rest ih =>
    intro todos h
    exact ih (applyOp todos op) (applyOp_preserves_unique todos op h)

theorem create_fresh_id (todos : List Todo) (p : Payload) (t : Todo)
    (hc : (create_todo todos (some p)).2 = TodoResponse.created t) :
    t.id ∉ todos.map Todo.id := by
  cases hp : p.title with
  | none => simp [create_todo, hp] at hc
  | some ttl =>
    simp only [create_todo, hp, TodoResponse.created.injEq] at hc
    by_cases hemp : todos.isEmpty = true
    · have hnil : todos = [] := List.isEmpty_iff.mp hemp
      subst hnil
      simp
    · have hemp' : todos.isEmpty = false := Bool.eq_false_iff.mpr hemp
      rw [hemp'] at hc
      simp only [Bool.false_eq_true, if_false] at hc
      intro hmem
      rcases List.mem_map.1 hmem with ⟨u, hu, hid⟩
      have hle := maxId_ge todos u hu
      rw [← hc] at hid
      simp at hid
      omega

/-- Claim C5: id uniqueness holds of the seeded initial state, is
preserved by every sequence of operations, and the id Create assigns is
never already present in the collection it starts from. -/
theorem unique_ids_invariant :
    UniqueIds initial_todos ∧
    (∀ ops : List Op, UniqueIds (runOps initial_todos ops)) ∧
    (∀ (ops : List Op) (p : Payload) (t : Todo),
      (create_todo (runOps initial_todos ops) (some p)).2 =
        TodoResponse.created t →
      t.id ∉ (runOps initial_todos ops).map Todo.id) := by
  refine ⟨by unfold UniqueIds; decide, ?_, ?_⟩
  · intro ops
    exact runOps_preserves_unique ops initial_todos
      (by unfold UniqueIds; decide)
  · intro ops p t hc
    exact create_fresh_id (runOps initial_todos ops) p t hc

/-- Witness for C5: the id assigned by a create on the seeded store is
not among the existing ids. -/
theorem unique_ids_invariant_witness :
    (Todo.mk 4 "Test" false).id ∉ (runOps initial_todos []).map Todo.id :=
  unique_ids_invariant.2.2 [] (Payload.mk (some "Test") none false)
    (Todo.mk 4 "Test" false) (by decide)

/-- Witness for C3: deleting record 2 from the seeded store. -/
theorem delete_filters_exactly_witness :
    (delete_todo initial_todos 2).2 = TodoResponse.resultTrue ∧
    (delete_todo initial_todos 2).1.Sublist initial_todos ∧
    (∀ u : Todo,
      u ∈ (delete_todo initial_todos 2).1 ↔ u ∈ initial_todos ∧ u.id ≠ 2) ∧
    (∀ u : Todo, u.id ≠ 2 →
      (delete_todo initial_todos 2).1.count u = initial_todos.count u) ∧
    (∀ u : Todo, u.id = 2 → (delete_todo initial_todos 2).1.count u = 0) :=
  delete_filters_exactly initial_todos 2 (by decide)

/-- Claim C6: when any link of the organizations/organization/title
chain is absent, extraction still succeeds, the course title is the
fixed placeholder, and every well-formed resource entry is still in the
returned scos list. -/
theorem title_defaults_untitled (root : XTree) (h : titleChainBroken root) :
    (parse_scorm_manifest (ManifestSource.parsed root)).lookup "course_title" =
      some (MVal.vstr "Untitled Course") ∧
    hasKey (parse_scorm_manifest (ManifestSource.parsed root)) "error" = false ∧
    ∃ l, (parse_scorm_manifest (ManifestSource.parsed root)).lookup "scos" =
        some (MVal.vscos l) ∧
      ∀ (rs r : XTree) (idv hv : String),
        root.findDesc qResources = some rs →
        r ∈ rs.childrenTagged qResource →
        r.getAttr "identifier" = some idv → idv ≠ "" →
        r.getAttr "href" = some hv → hv ≠ "" →
        Sco.mk idv hv ∈ l := by
  have htitle : extractCourseTitle root = some "Untitled Course" := by
    rcases h with h1 | ⟨orgs, h1, h2⟩ | ⟨orgs, org, h1, h2, h3⟩
    · simp [extractCourseTitle, h1]
    · simp [extractCourseTitle, h1, h2]
    · simp [extractCourseTitle, h1, h2, h3]
  refine ⟨?_, ?_, extractScos root, ?_, ?_⟩
  · simp [parse_scorm_manifest, htitle, optStrVal, List.lookup]
  · simp [parse_scorm_manifest, hasKey, List.lookup]
  · simp [parse_scorm_manifest, List.lookup]
  · intro rs r idv hv hrs hr hi hiv hh hhv
    exact (mem_extractScos root (Sco.mk idv hv)).mpr
      ⟨rs, r, hrs, hr, hi, hiv, hh, hhv⟩

/-- Witness for C6: a manifest with no organizations element at all. -/
theorem title_defaults_untitled_witness :
    (parse_scorm_manifest (ManifestSource.parsed
        (XTree.elem (QName.mk "ns" "manifest") [] none []))).lookup
      "course_title" = some (MVal.vstr "Untitled Course") ∧
    hasKey (parse_scorm_manifest (ManifestSource.parsed
        (XTree.elem (QName.mk "ns" "manifest") [] none []))) "error" = false ∧
    ∃ l, (parse_scorm_manifest (ManifestSource.parsed
          (XTree.elem (QName.mk "ns" "manifest") [] none []))).lookup "scos" =
        some (MVal.vscos l) ∧
      ∀ (rs r : XTree) (idv hv : String),
        (XTree.elem (QName.mk "ns" "manifest") [] none []).findDesc
          qResources = some rs →
        r ∈ rs.childrenTagged qResource →
        r.getAttr "identifier" = some idv → idv ≠ "" →
        r.getAttr "href" = some hv → hv ≠ "" →
        Sco.mk idv hv ∈ l :=
  title_defaults_untitled (XTree.elem (QName.mk "ns" "manifest") [] none [])
    (Or.inl rfl)

/-- Claim C7: the scos list is exactly the direct resource children of
the first resources element that carry a non-empty identifier and a
non-empty href, in document order; it is empty when there is no
resources element. -/
theorem scos_exactly_wellformed_resources (root : XTree) :
    (root.findDesc qResources = none → extractScos root = []) ∧
    (∀ rs, root.findDesc qResources = some rs →
      extractScos root =
        ((rs.childrenTagged qResource).filter (fun r =>
            truthyStr (r.getAttr "identifier") &&
            truthyStr (r.getAttr "href"))).map (fun r =>
          Sco.mk ((r.getAttr "identifier").getD "")
            ((r.getAttr "href").getD ""))) ∧
    (∀ s : Sco, s ∈ extractScos root ↔
      ∃ rs r, root.findDesc qResources = some rs ∧
        r ∈ rs.childrenTagged qResource ∧
        r.getAttr "identifier" = some s.identifier ∧ s.identifier ≠ "" ∧
        r.getAttr "href" = some s.href ∧ s.href ≠ "") := by
  refine ⟨?_, ?_, mem_extractScos root⟩
  · intro h
    unfold extractScos
    rw [h]
  · intro rs h
    unfold extractScos
    rw [h]
    exact filterMap_if_eq_map_filter _ _ _

/-- Witness for C7: a resources element with one complete resource, one
without href, and one with an empty identifier. -/
theorem scos_exactly_wellformed_resources_witness :
    extractScos (XTree.elem (QName.mk "ns" "manifest") [] none
        [XTree.elem qResources [] none
          [XTree.elem qResource [("identifier", "r1"), ("href", "a.html")]
            none [],
           XTree.elem qResource [("identifier", "r2")] none [],
           XTree.elem qResource [("identifier", ""), ("href", "b.html")]
            none []]]) =
      (((XTree.elem qResources [] none
          [XTree.elem qResource [("identifier", "r1"), ("href", "a.html")]
            none [],
           XTree.elem qResource [("identifier", "r2")] none [],
           XTree.elem qResource [("identifier", ""), ("href", "b.html")]
            none []]).childrenTagged qResource).filter (fun r =>
            truthyStr (r.getAttr "identifier") &&
            truthyStr (r.getAttr "href"))).map (fun r =>
          Sco.mk ((r.getAttr "identifier").getD "")
            ((r.getAttr "href").getD "")) :=
  (scos_exactly_wellformed_resources
    (XTree.elem (QName.mk "ns" "manifest") [] none
        [XTree.elem qResources [] none
          [XTree.elem qResource [("identifier", "r1"), ("href", "a.html")]
            none [],
           XTree.elem qResource [("identifier", "r2")] none [],
           XTree.elem qResource [("identifier", ""), ("href", "b.html")]
            none []]])).2.1
    (XTree.elem qResources [] none
          [XTree.elem qResource [("identifier", "r1"), ("href", "a.html")]
            none [],
           XTree.elem qResource [("identifier", "r2")] none [],
           XTree.elem qResource [("identifier", ""), ("href", "b.html")]
            none []]) rfl

/-- Claim C8: on a directory without imsmanifest.xml the extractor
returns the structured error dict, with no scos and no course_title. -/
theorem missing_manifest_structured_error :
    parse_scorm_manifest ManifestSource.missing =
      [("error", MVal.vstr
        "Manifest file (imsmanifest.xml) not found in the package")] ∧
    hasKey (parse_scorm_manifest ManifestSource.missing) "error" = true ∧
    (parse_scorm_manifest ManifestSource.missing).lookup "scos" = none ∧
    (parse_scorm_manifest ManifestSource.missing).lookup "course_title" =
      none :=
  ⟨rfl, rfl, rfl, rfl⟩

/-- Claim C9: a named, valid, extracted zip upload always answers HTTP
200; the body carries manifest_parsing_status together with exactly one
of manifest_error_details or manifest_data, matching the extraction
outcome. -/
theorem upload_status_200_exclusive_fields (f : UploadedFile)
    (h1 : f.filename ≠ "")
    (h2 : strEndsWith (strToLower f.filename) ".zip" = true)
    (h3 : f.zipValid = true) :
    (upload_scorm (some f)).1 = 200 ∧
    (hasKey (parse_scorm_manifest f.manifest) "error" = true →
      ((upload_scorm (some f)).2).lookup "manifest_parsing_status" =
        some (RVal.rstr "error") ∧
      hasKey ((upload_scorm (some f)).2) "manifest_error_details" = true ∧
      hasKey ((upload_scorm (some f)).2) "manifest_data" = false) ∧
    (hasKey (parse_scorm_manifest f.manifest) "error" = false →
      ((upload_scorm (some f)).2).lookup "manifest_parsing_status" =
        some (RVal.rstr "success") ∧
      hasKey ((upload_scorm (some f)).2) "manifest_data" = true ∧
      hasKey ((upload_scorm (some f)).2) "manifest_error_details" = false) := by
  obtain ⟨fn, zv, dir, ms⟩ := f
  have h1f : fn ≠ "" := h1
  have h2f : strEndsWith (strToLower fn) ".zip" = true := h2
  have h3f : zv = true := h3
  subst h3f
  cases herr : hasKey (parse_scorm_manifest ms) "error" with
  | true =>
    have hres : upload_scorm (some (UploadedFile.mk fn true dir ms)) =
        (200,
         [("message", RVal.rstr "File uploaded and extracted successfully"),
          ("extracted_content_path", RVal.rstr dir),
          ("manifest_parsing_status", RVal.rstr "error"),
          ("manifest_error_details",
           errDetails (parse_scorm_manifest ms))]) := by
      simp [upload_scorm, h1f, h2f, herr]
    refine ⟨by rw [hres], ?_, ?_⟩
    · intro _
      rw [hres]
      refine ⟨?_, ?_, ?_⟩ <;> simp [hasKey, List.lookup]
    · intro hfalse
      cases hfalse
  | false =>
    have hres : upload_scorm (some (UploadedFile.mk fn true dir ms)) =
        (200,
         [("message", RVal.rstr "File uploaded and extracted successfully"),
          ("extracted_content_path", RVal.rstr dir),
          ("manifest_parsing_status", RVal.rstr "success"),
          ("manifest_data", RVal.rdict (parse_scorm_manifest ms))]) := by
      simp [upload_scorm, h1f, h2f, herr]
    refine ⟨by rw [hres], ?_, ?_⟩
    · intro htrue
      cases htrue
    · intro _
      rw [hres]
      refine ⟨?_, ?_, ?_⟩ <;> simp [hasKey, List.lookup]

/-- Witness for C9: a valid zip whose package has no manifest file. -/
theorem upload_status_200_exclusive_fields_witness :
    (upload_scorm (some (UploadedFile.mk "course.zip" true
        "temp_uploads/course_x" ManifestSource.missing))).1 = 200 ∧
    (hasKey (parse_scorm_manifest ManifestSource.missing) "error" = true →
      ((upload_scorm (some (UploadedFile.mk "course.zip" true
          "temp_uploads/course_x" ManifestSource.missing))).2).lookup
        "manifest_parsing_status" = some (RVal.rstr "error") ∧
      hasKey ((upload_scorm (some (UploadedFile.mk "course.zip" true
          "temp_uploads/course_x" ManifestSource.missing))).2)
        "manifest_error_details" = true ∧
      hasKey ((upload_scorm (some (UploadedFile.mk "course.zip" true
          "temp_uploads/course_x" ManifestSource.missing))).2)
        "manifest_data" = false) ∧
    (hasKey (parse_scorm_manifest ManifestSource.missing) "error" = false →
      ((upload_scorm (some (UploadedFile.mk "course.zip" true
          "temp_uploads/course_x" ManifestSource.missing))).2).lookup
        "manifest_parsing_status" = some (RVal.rstr "success") ∧
      hasKey ((upload_scorm (some (UploadedFile.mk "course.zip" true
          "temp_uploads/course_x" ManifestSource.missing))).2)
        "manifest_data" = true ∧
      hasKey ((upload_scorm (some (UploadedFile.mk "course.zip" true
          "temp_uploads/course_x" ManifestSource.missing))).2)
        "manifest_error_details" = false) :=
  upload_status_200_exclusive_fields
    (UploadedFile.mk "course.zip" true "temp_uploads/course_x"
      ManifestSource.missing) (by decide) (by decide) rfl

/-- Claim C10: the extractor is total over its modelled input space and
every result dict is either an error dict (no course_title, no scos) or
a descriptor dict (course_title and scos, no error). -/
theorem manifest_result_dichotomy (src : ManifestSource) :
    (hasKey (parse_scorm_manifest src) "error" = true ∧
     (parse_scorm_manifest src).lookup "course_title" = none ∧
     (parse_scorm_manifest src).lookup "scos" = none) ∨
    (hasKey (parse_scorm_manifest src) "error" = false ∧
     (∃ v, (parse_scorm_manifest src).lookup "course_title" = some v) ∧
     (∃ l, (parse_scorm_manifest src).lookup "scos" =
        some (MVal.vscos l))) := by
  cases src with
  | missing => exact Or.inl ⟨rfl, rfl, rfl⟩
  | malformed msg => exact Or.inl ⟨rfl, rfl, rfl⟩
  | otherFailure msg => exact Or.inl ⟨rfl, rfl, rfl⟩
  | parsed root =>
    exact Or.inr ⟨rfl, ⟨optStrVal (extractCourseTitle root), rfl⟩,
      ⟨extractScos root, rfl⟩⟩

end SynapticX
